import Mathlib

/-
Verification of the public-inputs-hash encoder of the Aptos keyless prover
service (src/prover/src/input_processing/public_inputs_hash.rs), as a shallow
embedding in Lean 4.

Modelling conventions:
* `Fr` is the BN254 scalar field, modelled as `ZMod r` for the exact prime `r`.
* Rust `Result<T>` (anyhow) becomes `Except PErr T`; the `?` operator becomes
  the explicit bind `ebind`.  Rust panics (slice/index out of bounds, `expect`,
  `HashMap` indexing with a missing key) are modelled by the distinguished
  error constructor `PErr.panicked`, which is *not* one of the returned error
  values of the spec's taxonomy.
* The external Poseidon-BN254 primitives (`aptos_crypto::poseidon_bn254`) are
  a black box per the spec; they are modelled as a record of function
  parameters (`PoseidonBn254`) which every theorem quantifies over, with the
  spec's contract (e.g. overlong inputs are rejected with `LengthExceeded`)
  taken as an explicit hypothesis where a claim needs it.
* Repository code that is referenced by `public_inputs_hash.rs` but whose
  source is not available here (`FieldParser`, `field_check_input`, `Input`,
  `JwtParts`) is modelled from the spec; those definitions carry a
  `Modelled from the spec:` doc comment.
-/

/-- Order of the BN254 scalar field (the prime r), the field `ark_bn254::Fr`
ranges over. -/
def bn254FrModulus : Nat :=
  21888242871839275222246405745257275088548364400416034343698204186575808495617

/-- The scalar field the encoder computes in (`ark_bn254::Fr`). -/
abbrev Fr := ZMod bn254FrModulus

instance : Fact (1 < bn254FrModulus) := ⟨by norm_num [bn254FrModulus]⟩

/-- Error taxonomy of the spec (§7), plus `panicked` for Rust panics, which
are aborts rather than returned errors. -/
inductive PErr where
  | configKeyMissing (key : String)
  | fieldNotFound (key : String)
  | lengthExceeded
  | malformedToken
  | unsupportedKeyType
  | internalInvariant
  | panicked (msg : String)
deriving DecidableEq

/-- The Rust `?` operator on `Result`: propagate the error, or continue. -/
def ebind {α β : Type} (x : Except PErr α) (f : α → Except PErr β) : Except PErr β :=
  match x with
  | .error e => .error e
  | .ok a => f a

/-- Modelled from the spec: an extracted field (§3, §4.1) as returned by
`FieldParser::find_and_parse_field` (repository file
`src/prover/src/input_processing/field_parser.rs`, not available under
`src/`): the verbatim key text, value text, and whole raw text of one
top-level field of the JSON-like payload. -/
structure ParsedField where
  key : String
  value : String
  whole_field : String
deriving DecidableEq

/-- Modelled from the spec (§4.1): `FieldParser::find_and_parse_field`
(repository code not available under `src/`) locates the first top-level
occurrence of the named key in the JSON-like payload and returns its exact
raw texts, failing with `FieldNotFound` when the key is absent.  The decoded
payload is modelled as the ordered sequence of its top-level fields' raw
texts. -/
def FieldParser.find_and_parse_field (payload : List ParsedField) (key : String) :
    Except PErr ParsedField :=
  match payload.find? (fun f => f.key == key) with
  | some f => .ok f
  | none => .error (.fieldNotFound key)

/-- Modelled from the spec (§3, §6): the JWT segments collaborator
(`JwtParts`, repository code not available under `src/`), exposing the
decoded payload (which can fail with `MalformedToken`) and the undecoded
header with its trailing dot separator. -/
structure JwtParts where
  payload_decoded : Except PErr (List ParsedField)
  header_undecoded_with_dot : String

/-- Modelled from the spec (§6): the issuer's signing-key collaborator,
exposing one method, its scalar hash (which can fail with
`UnsupportedKeyType`). -/
structure Jwk where
  to_poseidon_scalar : Except PErr Fr

/-- Modelled from the spec (§3): the Claim Bundle (`Input`, repository file
`src/prover/src/input_processing/types.rs`, not available under `src/`).
`epk` is the byte serialization `epk.to_bytes()` of the ephemeral public
key. -/
structure Input where
  jwt_parts : JwtParts
  jwk : Jwk
  epk : List Nat
  epk_blinder_fr : Fr
  exp_date_secs : Nat
  exp_horizon_secs : Nat
  pepper_fr : Fr
  uid_key : String
  extra_field : Option String
  idc_aud : Option String
  skip_aud_checks : Bool

/-- The Field-Check Config (`CircuitConfig.max_lengths`): a mapping from
logical field name to maximum byte length, modelled as an association
list. -/
structure CircuitConfig where
  max_lengths : List (String × Nat)

/-- `config.max_lengths.get(k)`: first binding of the key, if any. -/
def CircuitConfig.get (c : CircuitConfig) (k : String) : Option Nat :=
  (c.max_lengths.find? (fun p => p.1 == k)).map (fun p => p.2)

/-- `config.max_lengths.get(k).ok_or_else(|| anyhow!(..))?` as used throughout
`public_inputs_hash.rs`: a missing key is a returned `ConfigKeyMissing`
error naming the key that was looked up. -/
def CircuitConfig.getMax (c : CircuitConfig) (k : String) : Except PErr Nat :=
  match c.get k with
  | some m => .ok m
  | none => .error (.configKeyMissing k)

/-- `config.max_lengths[k]` — Rust `HashMap` *indexing*, as used for the
`jwt_header_with_separator` lookup (public_inputs_hash.rs line 124): a
missing key is a panic (`Index for HashMap` calls `expect`), not a returned
error. -/
def CircuitConfig.indexMax (c : CircuitConfig) (k : String) : Except PErr Nat :=
  match c.get k with
  | some m => .ok m
  | none => .error (.panicked "key not found")

/-- The external Poseidon-BN254 primitives (`aptos_crypto::poseidon_bn254`),
a black box per the spec (§4.2, §4.3, §5 of spec.md, "external"):
string commitment, byte packing with length, and the scalar sponge. -/
structure PoseidonBn254 where
  pad_and_hash_string : String → Nat → Except PErr Fr
  pad_and_pack_bytes_to_scalars_with_len : List Nat → Nat → Except PErr (List Fr)
  hash_scalars : List Fr → Except PErr Fr

/-- `aptos_types::keyless::Configuration` (external crate): only the field
the encoder reads. -/
structure Configuration where
  max_commited_epk_bytes : Nat

/-- `Configuration::new_for_devnet()` from `aptos_types` (external crate).
The devnet protocol profile sets `max_commited_epk_bytes` to 93; only the
fact that this is a protocol-wide constant, not a per-request config value,
matters below. -/
def Configuration.new_for_devnet : Configuration := ⟨93⟩

/-- `IdCommitment::MAX_AUD_VAL_BYTES` from `aptos_types` (external crate): the
protocol-constant maximum committed length for audience values. -/
def IdCommitment.MAX_AUD_VAL_BYTES : Nat := 120

/-- `compute_temp_pubkey_frs` (public_inputs_hash.rs, lines 52–64), translated
from the source.  The packing primitive is called on the key bytes with the
devnet protocol constant as the maximum.  The source then takes
`frs[..3].try_into()` (a slice that panics when fewer than 3 scalars came
back) and `frs[3]` (an index that panics when exactly 3 came back); any
scalars past index 3 are ignored. -/
def compute_temp_pubkey_frs (P : PoseidonBn254) (input : Input) :
    Except PErr (List Fr × Fr) :=
  ebind (P.pad_and_pack_bytes_to_scalars_with_len input.epk
      Configuration.new_for_devnet.max_commited_epk_bytes) fun frs =>
  match frs with
  | a :: b :: c :: d :: _ => .ok ([a, b, c], d)
  | _ :: _ :: _ :: [] => .error (.panicked "index out of bounds: the len is 3 but the index is 3")
  | _ => .error (.panicked "range end index 3 out of range")

/-- The Ephemeral-Key Encoder as worded by the spec (§4.5), generic in the
maximum committed byte length, for comparison with the source translation
above. -/
def ephemeralKeyEncoderWithMax (P : PoseidonBn254) (input : Input) (maxBytes : Nat) :
    Except PErr (List Fr × Fr) :=
  ebind (P.pad_and_pack_bytes_to_scalars_with_len input.epk maxBytes) fun frs =>
  match frs with
  | a :: b :: c :: d :: _ => .ok ([a, b, c], d)
  | _ :: _ :: _ :: [] => .error (.panicked "index out of bounds: the len is 3 but the index is 3")
  | _ => .error (.panicked "range end index 3 out of range")

/-- Modelled from the spec: `field_check_input::private_aud_value` (repository
file not available under `src/`).  The audience value bound into the identity
commitment: the override audience when one was supplied (account-recovery
flows, §3 `override_audience`), otherwise the value of the payload's `aud`
field (§4.4). -/
def field_check_input.private_aud_value (input : Input) : Except PErr String :=
  match input.idc_aud with
  | some aud => .ok aud
  | none =>
    ebind input.jwt_parts.payload_decoded fun payload =>
    ebind (FieldParser.find_and_parse_field payload ("aud")) fun f =>
    .ok f.value

/-- Modelled from the spec (§4.6 slot 13): `field_check_input::override_aud_value`
(repository file not available under `src/`): the override audience value when
present, else a well-defined default placeholder, modelled as the empty
string. -/
def field_check_input.override_aud_value (input : Input) : Except PErr String :=
  match input.idc_aud with
  | some aud => .ok aud
  | none => .ok ""

/-- Modelled from the spec (§4.6 slot 10): the well-defined default placeholder
extra field used when no extra field name was supplied. -/
def defaultExtraField : ParsedField := ⟨"", "", ""⟩

/-- Modelled from the spec (§4.6 slot 10): `field_check_input::parsed_extra_field_or_default`
(repository file not available under `src/`): when an extra field name was
supplied, extract that field from the decoded payload; otherwise return the
default placeholder. -/
def field_check_input.parsed_extra_field_or_default (input : Input) :
    Except PErr ParsedField :=
  match input.extra_field with
  | some name =>
    ebind input.jwt_parts.payload_decoded fun payload =>
    FieldParser.find_and_parse_field payload name
  | none => .ok defaultExtraField

/-- Modelled from the spec (§4.6 slot 9): `Input::use_extra_field` (repository
file `types.rs`, not available under `src/`): whether an extra field name was
supplied. -/
def Input.use_extra_field (input : Input) : Bool := input.extra_field.isSome

/-- `compute_idc_hash` (public_inputs_hash.rs, lines 11–48), translated from
the source: extract the user-id field from the decoded payload by the
caller's `uid_key`, commit the private audience value
(`private_aud_value` max length), the user-id value (`uid_value`), and the
user-id key name (`uid_name`), then sponge
`[pepper, aud, uid_value, uid_key]`. -/
def compute_idc_hash (P : PoseidonBn254) (input : Input) (config : CircuitConfig)
    (pepper_fr : Fr) (jwt_payload : List ParsedField) : Except PErr Fr :=
  ebind (FieldParser.find_and_parse_field jwt_payload input.uid_key) fun uid_field =>
  ebind (field_check_input.private_aud_value input) fun aud_val =>
  ebind (config.getMax ("private_aud_value")) fun audMax =>
  ebind (P.pad_and_hash_string aud_val audMax) fun aud_hash_fr =>
  ebind (config.getMax ("uid_value")) fun uidValMax =>
  ebind (P.pad_and_hash_string uid_field.value uidValMax) fun uid_val_hash_fr =>
  ebind (config.getMax ("uid_name")) fun uidNameMax =>
  ebind (P.pad_and_hash_string uid_field.key uidNameMax) fun uid_key_hash_fr =>
  P.hash_scalars [pepper_fr, aud_hash_fr, uid_val_hash_fr, uid_key_hash_fr]

/-- The `frs` vector built by `compute_public_inputs_hash`
(public_inputs_hash.rs, lines 66–133), translated from the source in the
source's evaluation order: iss field parse, ephemeral-key packing, extra
field, override-audience commitment, then the pushes onto `frs` — the three
packing scalars, the length scalar, the identity commitment, the two expiry
scalars, the iss commitment, the extra-field flag and commitment, the header
commitment (note: the `jwt_header_with_separator` length is read with map
*indexing*, which panics when the key is absent), the JWK scalar hash, the
override-audience commitment and flag. -/
def compute_public_inputs_frs (P : PoseidonBn254) (input : Input)
    (config : CircuitConfig) : Except PErr (List Fr) :=
  ebind input.jwt_parts.payload_decoded fun payload0 =>
  ebind (FieldParser.find_and_parse_field payload0 ("iss")) fun iss_field =>
  ebind (compute_temp_pubkey_frs P input) fun tp =>
  ebind (field_check_input.parsed_extra_field_or_default input) fun extra_field =>
  ebind (field_check_input.override_aud_value input) fun override_aud_str =>
  ebind (P.pad_and_hash_string override_aud_str IdCommitment.MAX_AUD_VAL_BYTES)
      fun override_aud_val_hashed =>
  ebind input.jwt_parts.payload_decoded fun payload1 =>
  ebind (compute_idc_hash P input config input.pepper_fr payload1) fun addr_idc_fr =>
  ebind (config.getMax ("iss_value")) fun issMax =>
  ebind (P.pad_and_hash_string iss_field.value issMax) fun iss_val_hash =>
  ebind (config.getMax ("extra_field")) fun extraMax =>
  ebind (P.pad_and_hash_string extra_field.whole_field extraMax) fun extra_field_hash =>
  ebind (config.indexMax ("jwt_header_with_separator")) fun headerMax =>
  ebind (P.pad_and_hash_string input.jwt_parts.header_undecoded_with_dot headerMax)
      fun jwt_header_hash =>
  ebind input.jwk.to_poseidon_scalar fun pubkey_hash_fr =>
  .ok (tp.1 ++ [tp.2, addr_idc_fr,
    ((input.exp_date_secs : Nat) : Fr), ((input.exp_horizon_secs : Nat) : Fr),
    iss_val_hash,
    (if input.use_extra_field then (1 : Fr) else 0), extra_field_hash,
    jwt_header_hash, pubkey_hash_fr,
    override_aud_val_hashed,
    (if input.idc_aud.isSome then (1 : Fr) else 0)])

/-- `compute_public_inputs_hash` (public_inputs_hash.rs, lines 66–162),
translated from the source: build the `frs` vector and reduce it with the
scalar sponge. -/
def compute_public_inputs_hash (P : PoseidonBn254) (input : Input)
    (config : CircuitConfig) : Except PErr Fr :=
  ebind (compute_public_inputs_frs P input config) fun frs =>
  P.hash_scalars frs

/-- A concrete instantiation of the external Poseidon primitives, used to
evaluate the encoder on closed inputs: commitments are 0, the packing
primitive honours the length contract and returns four zero scalars, and the
sponge returns the length of its input vector. -/
def P0 : PoseidonBn254 where
  pad_and_hash_string := fun _ _ => .ok 0
  pad_and_pack_bytes_to_scalars_with_len := fun bytes maxBytes =>
    if maxBytes < bytes.length then .error .lengthExceeded else .ok [0, 0, 0, 0]
  hash_scalars := fun l => .ok ((l.length : Nat) : Fr)

/-- A concrete decoded payload used by the closed evaluations below. -/
def payloadW : List ParsedField :=
  [⟨"iss", "accounts", "w0"⟩, ⟨"aud", "audval", "w1"⟩, ⟨"sub", "subval", "w2"⟩,
   ⟨"family_name", "fam", "w3"⟩, ⟨"", "emptyvalue", "w4"⟩]

/-- A concrete Claim Bundle used by the closed evaluations below. -/
def inputW : Input where
  jwt_parts := ⟨.ok payloadW, "hdr."⟩
  jwk := ⟨.ok 7⟩
  epk := [1, 2, 3]
  epk_blinder_fr := 42
  exp_date_secs := 19
  exp_horizon_secs := 11
  pepper_fr := 76
  uid_key := "sub"
  extra_field := some "family_name"
  idc_aud := none
  skip_aud_checks := false

/-- A concrete Field-Check Config containing every key the assembler needs. -/
def configW : CircuitConfig :=
  ⟨[("private_aud_value", 10), ("uid_value", 10), ("uid_name", 10),
    ("iss_value", 10), ("extra_field", 20), ("jwt_header_with_separator", 30)]⟩

instance {ε α : Type} [DecidableEq ε] [DecidableEq α] : DecidableEq (Except ε α) := fun
  | .ok a, .ok b => decidable_of_iff (a = b) (by simp)
  | .error a, .error b => decidable_of_iff (a = b) (by simp)
  | .ok _, .error _ => isFalse (fun h => Except.noConfusion h)
  | .error _, .ok _ => isFalse (fun h => Except.noConfusion h)

/-- Concrete Poseidon instantiation whose packing primitive returns five
scalars, used to exercise the not-exactly-4 branch of the Ephemeral-Key
Encoder on closed inputs. -/
def P5 : PoseidonBn254 where
  pad_and_hash_string := fun _ _ => .ok 0
  pad_and_pack_bytes_to_scalars_with_len := fun _ _ => .ok [0, 0, 0, 0, 0]
  hash_scalars := fun l => .ok ((l.length : Nat) : Fr)

/-- A Claim Bundle whose ephemeral key byte length (94) exceeds the devnet
maximum committed length (93). -/
def inputLong : Input := { inputW with epk := List.replicate 94 0 }

/-- The concrete 14-slot vector the assembler produces on
`(P0, inputW, configW)`. -/
def vW : List Fr :=
  [0, 0, 0, 0, ((4 : Nat) : Fr), ((19 : Nat) : Fr), ((11 : Nat) : Fr), 0, 1, 0,
   0, 7, 0, 0]

/-- The Claim Bundle `inputW` with no extra field requested. -/
def inputNone : Input := { inputW with extra_field := none }

/-- The 14-slot vector produced on `(P0, inputNone, configW)`: the extra-field
flag slot (index 8) is 0. -/
def vNone : List Fr :=
  [0, 0, 0, 0, ((4 : Nat) : Fr), ((19 : Nat) : Fr), ((11 : Nat) : Fr), 0, 0, 0,
   0, 7, 0, 0]

/-- The 14-slot vector produced on the same bundle with
`extra_field = some ""`: the extra-field flag slot (index 8) is 1. -/
def vEmpty : List Fr :=
  [0, 0, 0, 0, ((4 : Nat) : Fr), ((19 : Nat) : Fr), ((11 : Nat) : Fr), 0, 1, 0,
   0, 7, 0, 0]

/-- A Field-Check Config holding every key the assembler needs except
`jwt_header_with_separator`. -/
def configNoHeader : CircuitConfig :=
  ⟨[("private_aud_value", 10), ("uid_value", 10), ("uid_name", 10),
    ("iss_value", 10), ("extra_field", 20)]⟩

/-- The Field-Check Config holding every key the assembler needs except
`iss_value`. -/
def configNoIss : CircuitConfig :=
  ⟨[("private_aud_value", 10), ("uid_value", 10), ("uid_name", 10),
    ("extra_field", 20), ("jwt_header_with_separator", 30)]⟩

/-- The fixed 14-slot public-input vector contract, spelled from the spec's
words (§4.6): slots 1–3 the ephemeral-key packing scalars, slot 4 its length
scalar, slot 5 the identity commitment, slots 6–7 the expiry timestamp and
horizon as scalars equal to their integer values, slot 8 the iss-value
commitment (config key `iss_value`), slot 9 the extra-field flag, slot 10 the
extra-field commitment (config key `extra_field`), slot 11 the
header-with-separator commitment (config key `jwt_header_with_separator`),
slot 12 the JWK scalar hash, slot 13 the override-audience commitment (bound
by the protocol constant), slot 14 the override-audience flag. -/
def IsFixedPublicInputsVector (P : PoseidonBn254) (input : Input)
    (config : CircuitConfig) (v : List Fr) : Prop :=
  ∃ payload iss_field a b c tlen extraF ovrStr ovrH idc issMax issH exMax exH
    hdMax hdH jwkH,
    input.jwt_parts.payload_decoded = .ok payload ∧
    FieldParser.find_and_parse_field payload ("iss") = .ok iss_field ∧
    compute_temp_pubkey_frs P input = .ok ([a, b, c], tlen) ∧
    field_check_input.parsed_extra_field_or_default input = .ok extraF ∧
    field_check_input.override_aud_value input = .ok ovrStr ∧
    P.pad_and_hash_string ovrStr IdCommitment.MAX_AUD_VAL_BYTES = .ok ovrH ∧
    compute_idc_hash P input config input.pepper_fr payload = .ok idc ∧
    config.getMax ("iss_value") = .ok issMax ∧
    P.pad_and_hash_string iss_field.value issMax = .ok issH ∧
    config.getMax ("extra_field") = .ok exMax ∧
    P.pad_and_hash_string extraF.whole_field exMax = .ok exH ∧
    config.get ("jwt_header_with_separator") = some hdMax ∧
    P.pad_and_hash_string input.jwt_parts.header_undecoded_with_dot hdMax = .ok hdH ∧
    input.jwk.to_poseidon_scalar = .ok jwkH ∧
    v = [a, b, c, tlen, idc,
         ((input.exp_date_secs : Nat) : Fr), ((input.exp_horizon_secs : Nat) : Fr),
         issH, (if input.use_extra_field then (1 : Fr) else 0), exH, hdH, jwkH,
         ovrH, (if input.idc_aud.isSome then (1 : Fr) else 0)]

theorem ebind_ok {α β : Type} {x : Except PErr α} {f : α → Except PErr β} {b : β} :
    ebind x f = .ok b ↔ ∃ a, x = .ok a ∧ f a = .ok b := by
  cases x <;> simp [ebind]

theorem ebind_error {α β : Type} {x : Except PErr α} {f : α → Except PErr β} {e : PErr}
    (h : x = .error e) : ebind x f = .error e := by
  rw [h]; rfl

theorem ebind_ok_arg {α β : Type} {x : Except PErr α} {f : α → Except PErr β} {a : α}
    (h : x = .ok a) : ebind x f = f a := by
  rw [h]; rfl

theorem getMax_ok {c : CircuitConfig} {k : String} {m : Nat} :
    c.getMax k = .ok m ↔ c.get k = some m := by
  unfold CircuitConfig.getMax
  cases c.get k <;> simp

theorem indexMax_ok {c : CircuitConfig} {k : String} {m : Nat} :
    c.indexMax k = .ok m ↔ c.get k = some m := by
  unfold CircuitConfig.indexMax
  cases c.get k <;> simp

theorem compute_temp_pubkey_frs_ok_shape {P : PoseidonBn254} {input : Input}
    {tp : List Fr × Fr} (h : compute_temp_pubkey_frs P input = .ok tp) :
    ∃ a b c rest,
      P.pad_and_pack_bytes_to_scalars_with_len input.epk
        Configuration.new_for_devnet.max_commited_epk_bytes =
        .ok (a :: b :: c :: tp.2 :: rest) ∧
      tp.1 = [a, b, c] := by
  unfold compute_temp_pubkey_frs at h
  rw [ebind_ok] at h
  obtain ⟨frs, hfrs, hm⟩ := h
  rcases frs with _ | ⟨a, _ | ⟨b, _ | ⟨c, _ | ⟨d, rest⟩⟩⟩⟩ <;> simp at hm
  subst hm
  exact ⟨a, b, c, rest, hfrs, rfl⟩

/-- Decomposition of a successful run of the assembler: every intermediate
result exists and the produced vector is exactly the fixed 14-slot list, in
order. Shared by the claim theorems below. -/
theorem compute_public_inputs_frs_ok {P : PoseidonBn254} {input : Input}
    {config : CircuitConfig} {v : List Fr}
    (h : compute_public_inputs_frs P input config = .ok v) :
    ∃ payload iss_field a b c tlen extraF ovrStr ovrH idc issMax issH exMax exH
      hdMax hdH jwkH,
      input.jwt_parts.payload_decoded = .ok payload ∧
      FieldParser.find_and_parse_field payload ("iss") = .ok iss_field ∧
      compute_temp_pubkey_frs P input = .ok ([a, b, c], tlen) ∧
      field_check_input.parsed_extra_field_or_default input = .ok extraF ∧
      field_check_input.override_aud_value input = .ok ovrStr ∧
      P.pad_and_hash_string ovrStr IdCommitment.MAX_AUD_VAL_BYTES = .ok ovrH ∧
      compute_idc_hash P input config input.pepper_fr payload = .ok idc ∧
      config.getMax ("iss_value") = .ok issMax ∧
      P.pad_and_hash_string iss_field.value issMax = .ok issH ∧
      config.getMax ("extra_field") = .ok exMax ∧
      P.pad_and_hash_string extraF.whole_field exMax = .ok exH ∧
      config.get ("jwt_header_with_separator") = some hdMax ∧
      P.pad_and_hash_string input.jwt_parts.header_undecoded_with_dot hdMax = .ok hdH ∧
      input.jwk.to_poseidon_scalar = .ok jwkH ∧
      v = [a, b, c, tlen, idc,
           ((input.exp_date_secs : Nat) : Fr), ((input.exp_horizon_secs : Nat) : Fr),
           issH, (if input.use_extra_field then (1 : Fr) else 0), exH, hdH, jwkH,
           ovrH, (if input.idc_aud.isSome then (1 : Fr) else 0)] := by
  unfold compute_public_inputs_frs at h
  rw [ebind_ok] at h; obtain ⟨payload0, hpay0, h⟩ := h
  rw [ebind_ok] at h; obtain ⟨iss_field, hiss, h⟩ := h
  rw [ebind_ok] at h; obtain ⟨tp, htp, h⟩ := h
  rw [ebind_ok] at h; obtain ⟨extraF, hexF, h⟩ := h
  rw [ebind_ok] at h; obtain ⟨ovrStr, hovr, h⟩ := h
  rw [ebind_ok] at h; obtain ⟨ovrH, hovrH, h⟩ := h
  rw [ebind_ok] at h; obtain ⟨payload1, hpay1, h⟩ := h
  rw [ebind_ok] at h; obtain ⟨idc, hidc, h⟩ := h
  rw [ebind_ok] at h; obtain ⟨issMax, hissMax, h⟩ := h
  rw [ebind_ok] at h; obtain ⟨issH, hissH, h⟩ := h
  rw [ebind_ok] at h; obtain ⟨exMax, hexMax, h⟩ := h
  rw [ebind_ok] at h; obtain ⟨exH, hexH, h⟩ := h
  rw [ebind_ok] at h; obtain ⟨hdMax, hhdMax, h⟩ := h
  rw [ebind_ok] at h; obtain ⟨hdH, hhdH, h⟩ := h
  rw [ebind_ok] at h; obtain ⟨jwkH, hjwk, h⟩ := h
  have hpp : payload1 = payload0 := by
    rw [hpay0] at hpay1
    exact (Except.ok.inj hpay1).symm
  rw [hpp] at hidc
  obtain ⟨a, b, c, rest, hpack, htp1⟩ := compute_temp_pubkey_frs_ok_shape htp
  have htp' : compute_temp_pubkey_frs P input = .ok ([a, b, c], tp.2) := by
    rw [htp]
    rw [← htp1]
  have hv : v = [a, b, c, tp.2, idc,
      ((input.exp_date_secs : Nat) : Fr), ((input.exp_horizon_secs : Nat) : Fr),
      issH, (if input.use_extra_field then (1 : Fr) else 0), exH, hdH, jwkH,
      ovrH, (if input.idc_aud.isSome then (1 : Fr) else 0)] := by
    have := Except.ok.inj h
    rw [← this, htp1]
    rfl
  exact ⟨payload0, iss_field, a, b, c, tp.2, extraF, ovrStr, ovrH, idc, issMax,
    issH, exMax, exH, hdMax, hdH, jwkH, hpay0, hiss, htp', hexF, hovr, hovrH,
    hidc, hissMax, hissH, hexMax, hexH, indexMax_ok.mp hhdMax, hhdH, hjwk, hv⟩

/-- C1: for every Claim Bundle and Field-Check Config on which it succeeds,
`compute_public_inputs_hash` returns the Scalar Sponge hash of exactly the
14-element vector in the fixed order: the 3 ephemeral-key packing scalars,
the ephemeral-key length scalar, the identity commitment, the expiry
timestamp as a scalar equal to its integer value, the expiry horizon as a
scalar equal to its integer value, the iss-value commitment, the extra-field
flag scalar, the extra-field commitment, the header-with-separator
commitment, the JWK scalar hash, the override-audience commitment, and the
override-audience flag scalar. -/
theorem compute_public_inputs_hash_is_sponge_of_fixed_vector
    (P : PoseidonBn254) (input : Input) (config : CircuitConfig) (h : Fr)
    (hok : compute_public_inputs_hash P input config = .ok h) :
    ∃ v, compute_public_inputs_frs P input config = .ok v ∧ v.length = 14 ∧
      IsFixedPublicInputsVector P input config v ∧ P.hash_scalars v = .ok h := by
  unfold compute_public_inputs_hash at hok
  rw [ebind_ok] at hok
  obtain ⟨v, hv, hh⟩ := hok
  obtain ⟨payload, iss_field, a, b, c, tlen, extraF, ovrStr, ovrH, idc, issMax,
    issH, exMax, exH, hdMax, hdH, jwkH, h1, h2, h3, h4, h5, h6, h7, h8, h9,
    h10, h11, h12, h13, h14, h15⟩ := compute_public_inputs_frs_ok hv
  refine ⟨v, hv, ?_, ?_, hh⟩
  · rw [h15]; rfl
  · exact ⟨payload, iss_field, a, b, c, tlen, extraF, ovrStr, ovrH, idc, issMax,
      issH, exMax, exH, hdMax, hdH, jwkH, h1, h2, h3, h4, h5, h6, h7, h8, h9,
      h10, h11, h12, h13, h14, h15⟩

/-- Closed witness for C1: the fixed-vector theorem applied to the concrete
instance `(P0, inputW, configW)`, on which the assembler succeeds with the
sponge value 14 (the toy sponge returns its input length). -/
theorem compute_public_inputs_hash_is_sponge_of_fixed_vector_witness :
    ∃ v, compute_public_inputs_frs P0 inputW configW = .ok v ∧ v.length = 14 ∧
      IsFixedPublicInputsVector P0 inputW configW v ∧
      P0.hash_scalars v = .ok ((14 : Nat) : Fr) :=
  compute_public_inputs_hash_is_sponge_of_fixed_vector P0 inputW configW
    ((14 : Nat) : Fr) (by decide)

/-- C3: for every input on which it succeeds, `compute_idc_hash` returns the
Scalar Sponge hash of exactly the ordered 4-element vector
`[pepper, aud commitment (config key private_aud_value), uid-value commitment
(config key uid_value), uid-key-name commitment (config key uid_name)]`,
where the user-id field is extracted from the decoded payload by
`uid_key`. -/
theorem compute_idc_hash_is_sponge_of_idc_vector
    (P : PoseidonBn254) (input : Input) (config : CircuitConfig)
    (pepper_fr : Fr) (payload : List ParsedField) (h : Fr)
    (hok : compute_idc_hash P input config pepper_fr payload = .ok h) :
    ∃ uid_field audVal audMax audH uvMax uvH unMax unH,
      FieldParser.find_and_parse_field payload input.uid_key = .ok uid_field ∧
      field_check_input.private_aud_value input = .ok audVal ∧
      config.getMax ("private_aud_value") = .ok audMax ∧
      P.pad_and_hash_string audVal audMax = .ok audH ∧
      config.getMax ("uid_value") = .ok uvMax ∧
      P.pad_and_hash_string uid_field.value uvMax = .ok uvH ∧
      config.getMax ("uid_name") = .ok unMax ∧
      P.pad_and_hash_string uid_field.key unMax = .ok unH ∧
      P.hash_scalars [pepper_fr, audH, uvH, unH] = .ok h := by
  unfold compute_idc_hash at hok
  rw [ebind_ok] at hok; obtain ⟨uid_field, g1, hok⟩ := hok
  rw [ebind_ok] at hok; obtain ⟨audVal, g2, hok⟩ := hok
  rw [ebind_ok] at hok; obtain ⟨audMax, g3, hok⟩ := hok
  rw [ebind_ok] at hok; obtain ⟨audH, g4, hok⟩ := hok
  rw [ebind_ok] at hok; obtain ⟨uvMax, g5, hok⟩ := hok
  rw [ebind_ok] at hok; obtain ⟨uvH, g6, hok⟩ := hok
  rw [ebind_ok] at hok; obtain ⟨unMax, g7, hok⟩ := hok
  rw [ebind_ok] at hok; obtain ⟨unH, g8, hok⟩ := hok
  exact ⟨uid_field, audVal, audMax, audH, uvMax, uvH, unMax, unH,
    g1, g2, g3, g4, g5, g6, g7, g8, hok⟩

/-- Closed witness for C3: the identity-commitment theorem applied to the
concrete instance, on which `compute_idc_hash` succeeds with sponge value 4
(the toy sponge returns its input length). -/
theorem compute_idc_hash_is_sponge_of_idc_vector_witness :
    ∃ uid_field audVal audMax audH uvMax uvH unMax unH,
      FieldParser.find_and_parse_field payloadW inputW.uid_key = .ok uid_field ∧
      field_check_input.private_aud_value inputW = .ok audVal ∧
      configW.getMax ("private_aud_value") = .ok audMax ∧
      P0.pad_and_hash_string audVal audMax = .ok audH ∧
      configW.getMax ("uid_value") = .ok uvMax ∧
      P0.pad_and_hash_string uid_field.value uvMax = .ok uvH ∧
      configW.getMax ("uid_name") = .ok unMax ∧
      P0.pad_and_hash_string uid_field.key unMax = .ok unH ∧
      P0.hash_scalars [inputW.pepper_fr, audH, uvH, unH] = .ok ((4 : Nat) : Fr) :=
  compute_idc_hash_is_sponge_of_idc_vector P0 inputW configW inputW.pepper_fr
    payloadW ((4 : Nat) : Fr) (by decide)

/-- C4 (amended): the Ephemeral-Key Encoder returns exactly 3 packing scalars
plus 1 length scalar; assuming the Byte-Packing Primitive's contract, it
fails with `LengthExceeded` when the key's byte length exceeds the configured
maximum; and when the primitive returns fewer than 4 scalars it panics
(slice/index out of bounds) rather than returning an `InternalInvariant`
error. -/
theorem compute_temp_pubkey_frs_amended (P : PoseidonBn254) (input : Input) :
    (∀ pk, compute_temp_pubkey_frs P input = .ok pk → pk.1.length = 3) ∧
    ((∀ bytes maxBytes, maxBytes < bytes.length →
        P.pad_and_pack_bytes_to_scalars_with_len bytes maxBytes =
          .error .lengthExceeded) →
      Configuration.new_for_devnet.max_commited_epk_bytes < input.epk.length →
      compute_temp_pubkey_frs P input = .error .lengthExceeded) ∧
    (∀ frs, P.pad_and_pack_bytes_to_scalars_with_len input.epk
        Configuration.new_for_devnet.max_commited_epk_bytes = .ok frs →
      frs.length < 4 →
      ∃ msg, compute_temp_pubkey_frs P input = .error (.panicked msg)) := by
  refine ⟨?_, ?_, ?_⟩
  · intro pk hok
    obtain ⟨a, b, c, rest, _, h1⟩ := compute_temp_pubkey_frs_ok_shape hok
    rw [h1]
    rfl
  · intro hc hlen
    unfold compute_temp_pubkey_frs
    exact ebind_error (hc _ _ hlen)
  · intro frs hfrs hlen
    unfold compute_temp_pubkey_frs
    rw [ebind_ok_arg hfrs]
    rcases frs with _ | ⟨a, _ | ⟨b, _ | ⟨c, _ | ⟨d, rest⟩⟩⟩⟩
    · exact ⟨_, rfl⟩
    · exact ⟨_, rfl⟩
    · exact ⟨_, rfl⟩
    · exact ⟨_, rfl⟩
    · simp at hlen
      omega

/-- Closed witness for C4: the amended theorem's `LengthExceeded` clause
applied to the concrete instance with a 94-byte ephemeral key, whose length
exceeds the devnet maximum of 93. -/
theorem compute_temp_pubkey_frs_amended_witness :
    compute_temp_pubkey_frs P0 inputLong = .error .lengthExceeded :=
  (compute_temp_pubkey_frs_amended P0 inputLong).2.1
    (fun bytes maxBytes h => by simp [P0, h]) (by decide)

/-- Counterexample for C4 as stated: with a packing primitive returning five
scalars (not exactly 4), `compute_temp_pubkey_frs` succeeds with the first
three scalars and the scalar at index 3 — it does not return an
`InternalInvariant` (or any) error. -/
theorem compute_temp_pubkey_frs_no_internal_invariant_counterexample :
    P5.pad_and_pack_bytes_to_scalars_with_len inputW.epk
      Configuration.new_for_devnet.max_commited_epk_bytes = .ok [0, 0, 0, 0, 0] ∧
    ([0, 0, 0, 0, 0] : List Fr).length = 5 ∧
    compute_temp_pubkey_frs P5 inputW = .ok ([0, 0, 0], 0) := by
  exact ⟨rfl, rfl, rfl⟩

/-- C7: the maximum committed byte length used by `compute_temp_pubkey_frs`
is the protocol-wide devnet constant
`Configuration.new_for_devnet.max_commited_epk_bytes`: the function is the
spec's Ephemeral-Key Encoder instantiated at that constant.  It takes no
Field-Check Config parameter at all (mirroring the source signature), so the
bound is independent of the request's own config. -/
theorem compute_temp_pubkey_frs_uses_devnet_constant
    (P : PoseidonBn254) (input : Input) :
    compute_temp_pubkey_frs P input =
      ephemeralKeyEncoderWithMax P input
        Configuration.new_for_devnet.max_commited_epk_bytes := rfl

/-- C10: if the Byte-Packing Primitive returns five or more scalars,
`compute_temp_pubkey_frs` succeeds, returning the first three scalars and the
scalar at index 3, silently ignoring all scalars beyond index 3. -/
theorem compute_temp_pubkey_frs_ignores_excess_scalars
    (P : PoseidonBn254) (input : Input) (frs : List Fr)
    (hfrs : P.pad_and_pack_bytes_to_scalars_with_len input.epk
        Configuration.new_for_devnet.max_commited_epk_bytes = .ok frs)
    (h5 : 5 ≤ frs.length) :
    ∃ a b c d rest, frs = a :: b :: c :: d :: rest ∧ rest ≠ [] ∧
      compute_temp_pubkey_frs P input = .ok ([a, b, c], d) := by
  rcases frs with _ | ⟨a, _ | ⟨b, _ | ⟨c, _ | ⟨d, _ | ⟨e, rest⟩⟩⟩⟩⟩ <;> simp at h5
  refine ⟨a, b, c, d, e :: rest, rfl, by simp, ?_⟩
  unfold compute_temp_pubkey_frs
  rw [ebind_ok_arg hfrs]

/-- Closed witness for C10: the theorem applied to the concrete five-scalar
packing primitive `P5`. -/
theorem compute_temp_pubkey_frs_ignores_excess_scalars_witness :
    ∃ a b c d rest, ([0, 0, 0, 0, 0] : List Fr) = a :: b :: c :: d :: rest ∧
      rest ≠ [] ∧ compute_temp_pubkey_frs P5 inputW = .ok ([a, b, c], d) :=
  compute_temp_pubkey_frs_ignores_excess_scalars P5 inputW [0, 0, 0, 0, 0]
    rfl (by decide)

/-- C8: on every successful run, slot 14 (`use_override_aud`) is 1 iff the
override audience `idc_aud` is present (else 0), and slot 13 commits the
override value when present, else the default placeholder, always bound by
the protocol constant `IdCommitment.MAX_AUD_VAL_BYTES` (no config length is
involved). -/
theorem override_aud_slots_spec (P : PoseidonBn254) (input : Input)
    (config : CircuitConfig) (v : List Fr)
    (hok : compute_public_inputs_frs P input config = .ok v) :
    v.length = 14 ∧
    v.getD 13 0 = (if input.idc_aud.isSome then (1 : Fr) else 0) ∧
    (v.getD 13 0 = 1 ↔ input.idc_aud.isSome) ∧
    ∃ s, field_check_input.override_aud_value input = .ok s ∧
      s = input.idc_aud.getD "" ∧
      P.pad_and_hash_string s IdCommitment.MAX_AUD_VAL_BYTES = .ok (v.getD 12 0) := by
  obtain ⟨payload, iss_field, a, b, c, tlen, extraF, ovrStr, ovrH, idc, issMax,
    issH, exMax, exH, hdMax, hdH, jwkH, h1, h2, h3, h4, h5, h6, h7, h8, h9,
    h10, h11, h12, h13, h14, h15⟩ := compute_public_inputs_frs_ok hok
  subst h15
  have hs : ovrStr = input.idc_aud.getD "" := by
    unfold field_check_input.override_aud_value at h5
    cases haud : input.idc_aud <;> rw [haud] at h5 <;>
      simpa using (Except.ok.inj h5).symm
  refine ⟨rfl, rfl, ?_, ovrStr, h5, hs, h6⟩
  cases haud : input.idc_aud <;> simp [haud]

/-- C9: on every successful run, slot 9 is 1 iff an extra field name was
supplied (else 0) and slot 10 commits the extracted field or the default
placeholder under config key `extra_field`; and two Claim Bundles differing
only in `extra_field` being `none` versus `some ""` produce different
14-element vectors before the final sponge. -/
theorem extra_field_slots_spec (P : PoseidonBn254) (input : Input)
    (config : CircuitConfig) :
    (∀ v, compute_public_inputs_frs P input config = .ok v →
      v.getD 8 0 = (if input.extra_field.isSome then (1 : Fr) else 0) ∧
      ∃ extraF exMax,
        field_check_input.parsed_extra_field_or_default input = .ok extraF ∧
        config.getMax ("extra_field") = .ok exMax ∧
        P.pad_and_hash_string extraF.whole_field exMax = .ok (v.getD 9 0)) ∧
    (∀ v₁ v₂, input.extra_field = none →
      compute_public_inputs_frs P input config = .ok v₁ →
      compute_public_inputs_frs P { input with extra_field := some "" } config = .ok v₂ →
      v₁ ≠ v₂) := by
  constructor
  · intro v hok
    obtain ⟨payload, iss_field, a, b, c, tlen, extraF, ovrStr, ovrH, idc, issMax,
      issH, exMax, exH, hdMax, hdH, jwkH, h1, h2, h3, h4, h5, h6, h7, h8, h9,
      h10, h11, h12, h13, h14, h15⟩ := compute_public_inputs_frs_ok hok
    subst h15
    exact ⟨rfl, extraF, exMax, h4, h10, h11⟩
  · intro v₁ v₂ hnone hok₁ hok₂ heq
    obtain ⟨payload, iss_field, a, b, c, tlen, extraF, ovrStr, ovrH, idc, issMax,
      issH, exMax, exH, hdMax, hdH, jwkH, h1, h2, h3, h4, h5, h6, h7, h8, h9,
      h10, h11, h12, h13, h14, h15⟩ := compute_public_inputs_frs_ok hok₁
    obtain ⟨payload', iss_field', a', b', c', tlen', extraF', ovrStr', ovrH',
      idc', issMax', issH', exMax', exH', hdMax', hdH', jwkH', g1, g2, g3, g4,
      g5, g6, g7, g8, g9, g10, g11, g12, g13, g14, g15⟩ :=
        compute_public_inputs_frs_ok hok₂
    have h8eq : v₁.getD 8 0 = v₂.getD 8 0 := by rw [heq]
    rw [h15, g15] at h8eq
    simp [Input.use_extra_field, hnone] at h8eq

/-- Closed witness for C8: the override-audience slot theorem applied to the
concrete instance `(P0, inputW, configW)`, whose run succeeds with the
concrete vector `vW`. -/
theorem override_aud_slots_spec_witness :
    vW.length = 14 ∧
    vW.getD 13 0 = (if inputW.idc_aud.isSome then (1 : Fr) else 0) ∧
    (vW.getD 13 0 = 1 ↔ inputW.idc_aud.isSome) ∧
    ∃ s, field_check_input.override_aud_value inputW = .ok s ∧
      s = inputW.idc_aud.getD "" ∧
      P0.pad_and_hash_string s IdCommitment.MAX_AUD_VAL_BYTES =
        .ok (vW.getD 12 0) :=
  override_aud_slots_spec P0 inputW configW vW (by decide)

/-- Closed witness for C9: the extra-field slot theorem applied to the
concrete instance; the two runs differing only in `extra_field` being `none`
versus `some ""` both succeed and produce different vectors. -/
theorem extra_field_slots_spec_witness : vNone ≠ vEmpty :=
  (extra_field_slots_spec P0 inputNone configW).2 vNone vEmpty rfl
    (by decide) (by decide)

/-- C5, evaluated at the failing input: with every other stage succeeding and
`jwt_header_with_separator` absent from the config, the assembler aborts with
the map-indexing panic — it does not return a `ConfigKeyMissing` error to the
caller. -/
theorem header_key_missing_panics :
    configNoHeader.get ("jwt_header_with_separator") = none ∧
    compute_public_inputs_hash P0 inputW configNoHeader =
      .error (.panicked "key not found") :=
  ⟨rfl, rfl⟩

/-- Counterexample for C6 as stated: a Field-Check Config from which
`iss_value` is absent (the empty config) on which the run fails with
`ConfigKeyMissing "private_aud_value"`, not `ConfigKeyMissing "iss_value"` —
the identity-commitment lookups run before the `iss_value` lookup. -/
theorem iss_value_missing_counterexample :
    CircuitConfig.get ⟨[]⟩ ("iss_value") = none ∧
    compute_public_inputs_hash P0 inputW ⟨[]⟩ =
      .error (.configKeyMissing "private_aud_value") :=
  ⟨rfl, rfl⟩

/-- C6 (amended): when every stage before the `iss_value` lookup succeeds
(payload decode, iss parse, ephemeral-key packing, extra field,
override-audience commitment, identity commitment) and `iss_value` is absent
from the config, `compute_public_inputs_hash` fails with the returned error
`ConfigKeyMissing "iss_value"` — no panic, no default substitution. -/
theorem iss_value_missing_config_key_error
    (P : PoseidonBn254) (input : Input) (config : CircuitConfig)
    (payload : List ParsedField) (iss_field : ParsedField) (tp : List Fr × Fr)
    (extraF : ParsedField) (ovrStr : String) (ovrH idc : Fr)
    (hpay : input.jwt_parts.payload_decoded = .ok payload)
    (hiss : FieldParser.find_and_parse_field payload ("iss") = .ok iss_field)
    (htp : compute_temp_pubkey_frs P input = .ok tp)
    (hex : field_check_input.parsed_extra_field_or_default input = .ok extraF)
    (hovr : field_check_input.override_aud_value input = .ok ovrStr)
    (hovrH : P.pad_and_hash_string ovrStr IdCommitment.MAX_AUD_VAL_BYTES = .ok ovrH)
    (hidc : compute_idc_hash P input config input.pepper_fr payload = .ok idc)
    (hmiss : config.get ("iss_value") = none) :
    compute_public_inputs_hash P input config =
      .error (.configKeyMissing "iss_value") := by
  have hissmax : config.getMax ("iss_value") =
      .error (.configKeyMissing "iss_value") := by
    unfold CircuitConfig.getMax
    rw [hmiss]
  unfold compute_public_inputs_hash compute_public_inputs_frs
  rw [ebind_ok_arg hpay, ebind_ok_arg hiss, ebind_ok_arg htp, ebind_ok_arg hex,
    ebind_ok_arg hovr, ebind_ok_arg hovrH, ebind_ok_arg hpay,
    ebind_ok_arg hidc, ebind_error hissmax]
  rfl

/-- Closed witness for C6 (amended): the theorem applied to the concrete
instance whose config lacks only `iss_value`. -/
theorem iss_value_missing_config_key_error_witness :
    compute_public_inputs_hash P0 inputW configNoIss =
      .error (.configKeyMissing "iss_value") :=
  iss_value_missing_config_key_error P0 inputW configNoIss payloadW
    ⟨"iss", "accounts", "w0"⟩ ([0, 0, 0], 0) ⟨"family_name", "fam", "w3"⟩ ""
    0 ((4 : Nat) : Fr) rfl rfl rfl rfl rfl rfl (by decide) rfl
